import Mathlib

/-!
A shallow embedding of the stream/throttle core of `aioftp` (`common.py`).

Modelling conventions:
* clock readings (`asyncio` loop time) and durations are rationals (`ℚ`);
* Python `int` fields become `ℤ`, byte strings become `List ℕ`;
* an `async` method that only sleeps is embedded as a function returning the
  sleep duration it would request together with the (unchanged) state;
* fields `_limit`, `_start`, `_sum` of `Throttle` are embedded as `limit`,
  `start`, `sum`.
-/

/-- Direction selector, the `"read"` / `"write"` attribute name used by
`ThrottleStreamIO.wait` and `ThrottleStreamIO.append`. -/
inductive Direction where
  | read
  | write
deriving DecidableEq, Repr

/-- Python's builtin `round` on a real value: round half to even. -/
def pyRound (q : ℚ) : ℤ :=
  let n := ⌊q⌋
  let r := q - (n : ℚ)
  if r < 1/2 then n
  else if 1/2 < r then n + 1
  else if n % 2 = 0 then n else n + 1

/-- State of `Throttle`: `_limit` (optional int), `reset_rate`, `_start`
(optional timestamp), `_sum` (byte counter, may go negative). -/
structure Throttle where
  limit : Option ℤ
  reset_rate : ℚ
  start : Option ℚ
  sum : ℤ
deriving DecidableEq, Repr

/-- `Throttle.__init__(limit=limit, reset_rate=reset_rate)`:
`_start = None`, `_sum = 0`. -/
def Throttle.init (limit : Option ℤ) (reset_rate : ℚ) : Throttle :=
  { limit := limit, reset_rate := reset_rate, start := none, sum := 0 }

/-- `Throttle.wait`: if `_limit is not None and _limit > 0 and _start is not
None`, sleep `max(0, _start + _sum / _limit - now)`; otherwise return at once.
The method assigns no attribute, so the embedding returns the requested sleep
duration paired with the unchanged state. -/
def Throttle.waitRun (t : Throttle) (now : ℚ) : ℚ × Throttle :=
  match t.limit, t.start with
  | some l, some s =>
      if 0 < l then (max 0 (s + (t.sum : ℚ) / (l : ℚ) - now), t)
      else (0, t)
  | _, _ => (0, t)

/-- `Throttle.append(data, start)`: when `_limit is not None and _limit > 0`,
initialise `_start` on first use, apply the drift correction when
`start - _start > reset_rate`, then add `len(data)` to `_sum`. -/
def Throttle.append (t : Throttle) (dataLen : ℕ) (start : ℚ) : Throttle :=
  match t.limit with
  | none => t
  | some l =>
      if l ≤ 0 then t
      else
        let s1 := match t.start with
          | none => start
          | some s => s
        if t.reset_rate < start - s1 then
          { t with
              sum := t.sum - pyRound ((start - s1) * (l : ℚ)) + (dataLen : ℤ),
              start := some start }
        else
          { t with sum := t.sum + (dataLen : ℤ), start := some s1 }

/-- The `limit` property setter: store the new value and clear the memory
(`_start = None`, `_sum = 0`). -/
def Throttle.setLimit (t : Throttle) (v : Option ℤ) : Throttle :=
  { t with limit := v, start := none, sum := 0 }

/-- `Throttle.clone`: `Throttle(limit=self._limit, reset_rate=self.reset_rate)`,
hence a fresh throttle with no memory. -/
def Throttle.clone (t : Throttle) : Throttle :=
  Throttle.init t.limit t.reset_rate

/-- `StreamThrottle`: named tuple of a read throttle and a write throttle. -/
structure StreamThrottle where
  read : Throttle
  write : Throttle
deriving DecidableEq, Repr

/-- `StreamThrottle.clone`: clone both sides. -/
def StreamThrottle.clone (p : StreamThrottle) : StreamThrottle :=
  { read := p.read.clone, write := p.write.clone }

/-- `StreamThrottle.from_limits`: build a pair from two optional limits
(`Throttle` constructor defaults: `reset_rate = 10`). -/
def StreamThrottle.fromLimits (readLimit writeLimit : Option ℤ) : StreamThrottle :=
  { read := Throttle.init readLimit 10, write := Throttle.init writeLimit 10 }

/-- `getattr(throttle, name)` for `name` in `{"read", "write"}`. -/
def StreamThrottle.side (p : StreamThrottle) (d : Direction) : Throttle :=
  match d with
  | .read => p.read
  | .write => p.write

/-- Replace the `d` side of a pair (the embedding of mutating
`getattr(throttle, name)` in place). -/
def StreamThrottle.withSide (p : StreamThrottle) (d : Direction) (t : Throttle) : StreamThrottle :=
  match d with
  | .read => { p with read := t }
  | .write => { p with write := t }

/-- Python truthiness of the optional `limit` attribute, the condition
`if curr_throttle.limit:` in `ThrottleStreamIO.wait`. -/
def limitTruthy : Option ℤ → Bool
  | none => false
  | some l => decide (l ≠ 0)

/-- The throttle mapping of a `ThrottleStreamIO`: insertion-ordered
`name ↦ StreamThrottle` entries with unique keys. -/
abbrev ThrottleDict : Type := List (String × StreamThrottle)

/-- The names for which `ThrottleStreamIO.wait` creates a wait task:
the pairs whose `d` side has a truthy `limit`. -/
def waitedNames (ts : ThrottleDict) (d : Direction) : List String :=
  (List.filter (fun p => limitTruthy ((p.2.side d).limit)) ts).map Prod.fst

/-- `ThrottleStreamIO.wait(name)`: create a task per truthy-limit throttle of
the given direction and `asyncio.wait` them all.  The tasks run concurrently,
so the elapsed time of the method is the maximum of the individual sleep
durations (and `0` when no task is created); the embedding returns that
elapsed time. -/
def waitAllDuration (ts : ThrottleDict) (d : Direction) (now : ℚ) : ℚ :=
  ((List.filter (fun p => limitTruthy ((p.2.side d).limit)) ts).map
      (fun p => ((p.2.side d).waitRun now).1)).foldr max 0

/-- `ThrottleStreamIO.append(name, data, start)`: call `append` on the `d`
side of every pair in the mapping. -/
def appendAll (ts : ThrottleDict) (d : Direction) (data : List ℕ) (start : ℚ) : ThrottleDict :=
  ts.map (fun p => (p.1, p.2.withSide d ((p.2.side d).append data.length start)))

/-- Observable steps of a throttled read/write, in execution order. -/
inductive Event where
  | waited (d : Direction) (duration : ℚ)
  | transferred (d : Direction) (len : ℕ) (start : ℚ)
  | accounted (d : Direction) (len : ℕ) (start : ℚ)
deriving DecidableEq, Repr

/-- `ThrottleStreamIO.read(count)`: `await self.wait("read")`, capture
`start = _now()`, delegate to the raw read, then account the returned data.
`raw count t` models `super().read(count)` invoked at time `t`, returning the
bytes actually read; the raw read is assumed instantaneous so the elapsed wait
is the only time cost modelled. -/
def throttledRead (ts : ThrottleDict) (count : ℤ) (now : ℚ) (raw : ℤ → ℚ → List ℕ) :
    List ℕ × ThrottleDict × List Event :=
  let wd := waitAllDuration ts .read now
  let start := now + wd
  let data := raw count start
  (data, appendAll ts .read data start,
    [Event.waited .read wd, Event.transferred .read data.length start,
      Event.accounted .read data.length start])

/-- `ThrottleStreamIO.readline()`: same pattern as `read`, with a
zero-argument raw readline. -/
def throttledReadline (ts : ThrottleDict) (now : ℚ) (raw : ℚ → List ℕ) :
    List ℕ × ThrottleDict × List Event :=
  let wd := waitAllDuration ts .read now
  let start := now + wd
  let data := raw start
  (data, appendAll ts .read data start,
    [Event.waited .read wd, Event.transferred .read data.length start,
      Event.accounted .read data.length start])

/-- `ThrottleStreamIO.write(data)`: wait on the write side, capture `start`,
delegate the write, then account the exact bytes passed. -/
def throttledWrite (ts : ThrottleDict) (data : List ℕ) (now : ℚ) :
    ThrottleDict × List Event :=
  let wd := waitAllDuration ts .write now
  let start := now + wd
  (appendAll ts .write data start,
    [Event.waited .write wd, Event.transferred .write data.length start,
      Event.accounted .write data.length start])

/-- Python `a or b` on optional numbers: `a` when `a` is truthy
(not `None` and nonzero), else `b`. -/
def pyOrOpt (a b : Option ℚ) : Option ℚ :=
  match a with
  | none => b
  | some x => if x = 0 then b else some x

/-- `StreamIO.__init__` timeout resolution:
`read_timeout = read_timeout or timeout` and
`write_timeout = write_timeout or timeout`; returns the resolved
`(read_timeout, write_timeout)`. -/
def StreamIOInit (timeout read_timeout write_timeout : Option ℚ) :
    Option ℚ × Option ℚ :=
  (pyOrOpt read_timeout timeout, pyOrOpt write_timeout timeout)

/-- The read operation wrapped by the `AsyncStreamIterator`s produced by
`iter_by_line` / `iter_by_block`: a stateful stream read.  The stream is a
list of successive chunks; at end of stream the read keeps returning the
empty chunk (the behaviour of `asyncio.StreamReader.read`/`readline` at
end of file). -/
def streamRead (rem : List (List ℕ)) : List ℕ × List (List ℕ) :=
  match rem with
  | [] => ([], [])
  | c :: rest => (c, rest)

/-- `AsyncStreamIterator.__anext__`: call `read_coro` once; a non-empty
result is returned, an empty result raises `StopAsyncIteration` (`none`).
The state the wrapped read closure acts on is threaded explicitly. -/
def anext {σ : Type} (read : σ → List ℕ × σ) (s : σ) : Option (List ℕ × σ) :=
  let r := read s
  if r.1.isEmpty then none else some r

/-- Driving an `AsyncStreamIterator` with an `async for` loop: repeatedly
call `__anext__` until it signals `StopAsyncIteration`.  Returns the
collected chunks, the final state of the wrapped read's stream, and how many
times the read operation was invoked.  `fuel` bounds the loop for
totality. -/
def drive {σ : Type} (read : σ → List ℕ × σ) : ℕ → σ → List (List ℕ) × σ × ℕ
  | 0, s => ([], s, 0)
  | Nat.succ fuel, s =>
    match anext read s with
    | none => ([], (read s).2, 1)
    | some (d, s1) =>
      let r := drive read fuel s1
      (d :: r.1, r.2.1, r.2.2 + 1)

/-- A run of a concrete `AbstractAsyncLister`: the elements its
`__anext__` would produce, each with the time its production takes, and the
time taken by the final exhausting step (the one that raises
`StopAsyncIteration`). -/
structure ListerRun (α : Type) where
  elems : List (ℚ × α)
  exhaustDur : ℚ

/-- `asyncio.wait_for(coro, timeout)` outcome: with `timeout = None` the
step always completes; otherwise a step whose production time exceeds the
timeout is cancelled and `TimeoutError` is raised. -/
def timesOut (timeout : Option ℚ) (dur : ℚ) : Bool :=
  match timeout with
  | none => false
  | some t => decide (t < dur)

/-- Result of awaiting an `AsyncListerMixin`: either the collected list or a
propagated `TimeoutError` (deadline exceeded). -/
inductive CollectOutcome (α : Type) where
  | ok (xs : List α)
  | deadline
deriving DecidableEq

/-- `AsyncListerMixin._to_list` over an `AbstractAsyncLister` whose
`__anext__` is wrapped `@with_timeout`: iterate, appending each produced
element; a step that times out propagates the failure (the `async for` only
swallows `StopAsyncIteration`); the exhausting step itself is also bounded
by the timeout. -/
def collectSteps {α : Type} (timeout : Option ℚ) :
    List (ℚ × α) → ℚ → CollectOutcome α
  | [], exhaustDur =>
    if timesOut timeout exhaustDur then CollectOutcome.deadline
    else CollectOutcome.ok []
  | (d, x) :: rest, exhaustDur =>
    if timesOut timeout d then CollectOutcome.deadline
    else
      match collectSteps timeout rest exhaustDur with
      | CollectOutcome.ok xs => CollectOutcome.ok (x :: xs)
      | CollectOutcome.deadline => CollectOutcome.deadline

/-- `await lister`: `__await__` delegates to `_to_list`. -/
def awaitLister {α : Type} (timeout : Option ℚ) (run : ListerRun α) : CollectOutcome α :=
  collectSteps timeout run.elems run.exhaustDur

/-- A heap of dictionary objects, for the aliasing semantics of the mutable
default argument `throttles={}` of `ThrottleStreamIO.__init__`.  A
dictionary object is identified by its address (an index into the heap). -/
structure Store where
  dicts : ℕ → ThrottleDict

/-- The default `{}` of `ThrottleStreamIO.__init__` is allocated once, when
the function is defined; every call that omits `throttles` receives this
same object. -/
def defaultThrottlesAddr : ℕ := 0

/-- `ThrottleStreamIO.__init__`: the instance's `throttles` attribute is the
passed dictionary object, or the shared default dictionary when the argument
is omitted.  An instance is represented by the address of its `throttles`
dictionary. -/
def throttleStreamInitAddr (throttlesArg : Option ℕ) : ℕ :=
  throttlesArg.getD defaultThrottlesAddr

/-- Read a dictionary object from the heap. -/
def Store.getDict (st : Store) (a : ℕ) : ThrottleDict :=
  st.dicts a

/-- Overwrite a dictionary object on the heap. -/
def Store.setDict (st : Store) (a : ℕ) (dct : ThrottleDict) : Store :=
  { dicts := fun b => if b = a then dct else st.dicts b }

/-- Python `dct[k] = v`: replace the value when the key is present, else
append the new entry. -/
def dictInsert (dct : ThrottleDict) (k : String) (v : StreamThrottle) : ThrottleDict :=
  if List.any dct (fun p => p.1 = k) then
    List.map (fun p => if p.1 = k then (k, v) else p) dct
  else dct ++ [(k, v)]

/-- `instance.throttles[k] = v`: mutate the dictionary object the instance
refers to. -/
def insertThrottleVia (st : Store) (inst : ℕ) (k : String) (v : StreamThrottle) : Store :=
  st.setDict inst (dictInsert (st.getDict inst) k v)

/-- `ThrottleStreamIO.wait` through an instance: the duration depends on the
dictionary object the instance's `throttles` attribute refers to. -/
def waitVia (st : Store) (inst : ℕ) (d : Direction) (now : ℚ) : ℚ :=
  waitAllDuration (st.getDict inst) d now

/-- `ThrottleStreamIO.read` through an instance: waits and accounts through
the referenced dictionary object, mutating it in place. -/
def readVia (st : Store) (inst : ℕ) (count : ℤ) (now : ℚ) (raw : ℤ → ℚ → List ℕ) :
    List ℕ × Store :=
  let r := throttledRead (st.getDict inst) count now raw
  (r.1, st.setDict inst r.2.1)

/-- The spec's data model for `limit`: an optional *positive* rate
(`None`/absent = unlimited). -/
def validLimitB : Option ℤ → Bool
  | none => true
  | some l => decide (0 < l)

/-- The concrete heap at module start: every address holds the empty
dictionary (address `0` being the constructor's default `{}`). -/
def store0 : Store := { dicts := fun _ => [] }

/-- C1: for every `Throttle`, `wait()` changes no throttle state; it returns
immediately when the throttle is unlimited (`limit` unset or non-positive);
otherwise, with `windowStart` and `accumulated` the current state and `now`
the clock reading, it suspends for exactly
`max(0, windowStart + accumulated / limit - now)`. -/
theorem throttle_wait_spec :
    (∀ (t : Throttle) (now : ℚ), (t.waitRun now).2 = t) ∧
    (∀ (t : Throttle) (now : ℚ), t.limit = none → (t.waitRun now).1 = 0) ∧
    (∀ (t : Throttle) (now : ℚ) (l : ℤ), t.limit = some l → l ≤ 0 →
      (t.waitRun now).1 = 0) ∧
    (∀ (t : Throttle) (now : ℚ) (l : ℤ) (ws : ℚ), t.limit = some l → 0 < l →
      t.start = some ws →
      (t.waitRun now).1 = max 0 (ws + (t.sum : ℚ) / (l : ℚ) - now)) := by
  refine ⟨?_, ?_, ?_, ?_⟩
  · rintro ⟨lim, rr, st, sm⟩ now
    unfold Throttle.waitRun
    cases lim <;> cases st <;>
      first
        | rfl
        | (dsimp only; split <;> rfl)
  · rintro ⟨lim, rr, st, sm⟩ now h
    cases h
    cases st <;> rfl
  · rintro ⟨lim, rr, st, sm⟩ now l h hle
    cases h
    cases st
    · rfl
    · unfold Throttle.waitRun
      dsimp only
      rw [if_neg (by omega)]
  · rintro ⟨lim, rr, st, sm⟩ now l ws h hpos h2
    cases h
    cases h2
    unfold Throttle.waitRun
    dsimp only
    rw [if_pos hpos]

/-- Witness for C1 at concrete throttles: an unlimited, a zero-limit, a
negative-limit and a positive-limit throttle. -/
theorem throttle_wait_spec_witness :
    ((⟨none, 10, some 1, 5⟩ : Throttle).waitRun 3).2 = ⟨none, 10, some 1, 5⟩ ∧
    ((⟨none, 10, some 1, 5⟩ : Throttle).waitRun 3).1 = 0 ∧
    ((⟨some 0, 10, some 1, 5⟩ : Throttle).waitRun 3).1 = 0 ∧
    ((⟨some (-2), 10, some 1, 5⟩ : Throttle).waitRun 3).1 = 0 ∧
    ((⟨some 2, 10, some 1, 5⟩ : Throttle).waitRun 3).1 =
      max 0 (1 + ((5 : ℤ) : ℚ) / ((2 : ℤ) : ℚ) - 3) :=
  ⟨throttle_wait_spec.1 ⟨none, 10, some 1, 5⟩ 3,
   throttle_wait_spec.2.1 ⟨none, 10, some 1, 5⟩ 3 rfl,
   throttle_wait_spec.2.2.1 ⟨some 0, 10, some 1, 5⟩ 3 0 rfl (by decide),
   throttle_wait_spec.2.2.1 ⟨some (-2), 10, some 1, 5⟩ 3 (-2) rfl (by decide),
   throttle_wait_spec.2.2.2 ⟨some 2, 10, some 1, 5⟩ 3 2 1 rfl (by decide) rfl⟩

/-- C2: for a `Throttle` with positive limit and `windowStart` set, `append`
applies the drift correction exactly when `observedStart - windowStart`
exceeds `resetRate`: then the new `accumulated` is
`priorAccumulated - round((observedStart - windowStart) * limit) + len(data)`
and `windowStart` becomes `observedStart`; otherwise `accumulated` only grows
by `len(data)` and `windowStart` is unchanged. -/
theorem throttle_append_spec :
    (∀ (t : Throttle) (l : ℤ) (ws : ℚ) (dataLen : ℕ) (obs : ℚ),
      t.limit = some l → 0 < l → t.start = some ws →
      t.reset_rate < obs - ws →
      (t.append dataLen obs).sum =
          t.sum - pyRound ((obs - ws) * (l : ℚ)) + (dataLen : ℤ) ∧
        (t.append dataLen obs).start = some obs) ∧
    (∀ (t : Throttle) (l : ℤ) (ws : ℚ) (dataLen : ℕ) (obs : ℚ),
      t.limit = some l → 0 < l → t.start = some ws →
      obs - ws ≤ t.reset_rate →
      (t.append dataLen obs).sum = t.sum + (dataLen : ℤ) ∧
        (t.append dataLen obs).start = some ws) := by
  constructor
  · rintro ⟨lim, rr, st, sm⟩ l ws dataLen obs h1 h2 h3 hdrift
    cases h1
    cases h3
    unfold Throttle.append
    dsimp only
    rw [if_neg (by omega), if_pos hdrift]
    exact ⟨rfl, rfl⟩
  · rintro ⟨lim, rr, st, sm⟩ l ws dataLen obs h1 h2 h3 hno
    cases h1
    cases h3
    unfold Throttle.append
    dsimp only
    rw [if_neg (by omega), if_neg (not_lt.mpr hno)]
    exact ⟨rfl, rfl⟩

/-- `(3 : ℚ) < 5 - 1`, used to instantiate the drift branch. -/
lemma drift_gap_concrete : (3 : ℚ) < 5 - 1 := by norm_num

/-- `5 - 1 ≤ (10 : ℚ)`, used to instantiate the no-drift branch. -/
lemma no_drift_gap_concrete : (5 : ℚ) - 1 ≤ 10 := by norm_num

/-- Witness for C2: a drifted append (gap `4 > resetRate 3`) and an
un-drifted append (gap `4 ≤ resetRate 10`) on concrete throttles. -/
theorem throttle_append_spec_witness :
    (((⟨some 2, 3, some 1, 7⟩ : Throttle).append 4 5).sum =
        7 - pyRound ((5 - 1) * ((2 : ℤ) : ℚ)) + (4 : ℤ) ∧
      ((⟨some 2, 3, some 1, 7⟩ : Throttle).append 4 5).start = some 5) ∧
    (((⟨some 2, 10, some 1, 7⟩ : Throttle).append 4 5).sum = 7 + (4 : ℤ) ∧
      ((⟨some 2, 10, some 1, 7⟩ : Throttle).append 4 5).start = some 1) :=
  ⟨throttle_append_spec.1 ⟨some 2, 3, some 1, 7⟩ 2 1 4 5 rfl (by decide) rfl
      drift_gap_concrete,
   throttle_append_spec.2 ⟨some 2, 10, some 1, 7⟩ 2 1 4 5 rfl (by decide) rfl
      no_drift_gap_concrete⟩

/-- C5: assigning the `limit` property stores the new value, resets
`windowStart` to unset and `accumulated` to zero (keeping `resetRate`), and a
`wait()` immediately afterwards requests a zero sleep. -/
theorem throttle_set_limit_resets (t : Throttle) (v : Option ℤ) (now : ℚ) :
    (t.setLimit v).limit = v ∧ (t.setLimit v).start = none ∧
    (t.setLimit v).sum = 0 ∧ (t.setLimit v).reset_rate = t.reset_rate ∧
    ((t.setLimit v).waitRun now).1 = 0 := by
  refine ⟨rfl, rfl, rfl, rfl, ?_⟩
  unfold Throttle.setLimit Throttle.waitRun
  cases v <;> rfl

/-- C6: `clone()` of a throttle copies `limit` and `resetRate` and clears the
memory; a pair's `clone()` does this on both sides.  (`clone` constructs a
fresh object and performs no mutation, so the original is unchanged.) -/
theorem throttle_clone_memoryless (t : Throttle) (p : StreamThrottle) :
    (t.clone.limit = t.limit ∧ t.clone.reset_rate = t.reset_rate ∧
      t.clone.start = none ∧ t.clone.sum = 0) ∧
    (p.clone.read = p.read.clone ∧ p.clone.write = p.write.clone ∧
      p.clone.read.limit = p.read.limit ∧
      p.clone.read.reset_rate = p.read.reset_rate ∧
      p.clone.read.start = none ∧ p.clone.read.sum = 0 ∧
      p.clone.write.limit = p.write.limit ∧
      p.clone.write.reset_rate = p.write.reset_rate ∧
      p.clone.write.start = none ∧ p.clone.write.sum = 0) :=
  ⟨⟨rfl, rfl, rfl, rfl⟩,
   ⟨rfl, rfl, rfl, rfl, rfl, rfl, rfl, rfl, rfl, rfl⟩⟩

/-- C9 counterexample: constructing the raw timed stream with
`timeout = 5` and `read_timeout = 0` yields a read timeout of `5`, not the
supplied `0` — Python's `read_timeout or timeout` treats `0` as absent. -/
theorem stream_timeouts_zero_counterexample :
    (StreamIOInit (some 5) (some 0) none).1 = some 5 ∧
    (StreamIOInit (some 5) (some 0) none).1 ≠ some 0 := by
  exact ⟨rfl, by decide⟩

/-- C9 amended: the resolved read timeout equals the `read_timeout` argument
whenever a non-zero one is supplied, and otherwise (argument omitted/`None`
or zero) equals the constructor-level `timeout`; symmetrically for the write
timeout. -/
theorem stream_timeouts_resolution :
    (∀ (tmo wt : Option ℚ) (x : ℚ), x ≠ 0 →
      (StreamIOInit tmo (some x) wt).1 = some x) ∧
    (∀ (tmo wt : Option ℚ), (StreamIOInit tmo none wt).1 = tmo) ∧
    (∀ (tmo wt : Option ℚ), (StreamIOInit tmo (some 0) wt).1 = tmo) ∧
    (∀ (tmo rt : Option ℚ) (x : ℚ), x ≠ 0 →
      (StreamIOInit tmo rt (some x)).2 = some x) ∧
    (∀ (tmo rt : Option ℚ), (StreamIOInit tmo rt none).2 = tmo) ∧
    (∀ (tmo rt : Option ℚ), (StreamIOInit tmo rt (some 0)).2 = tmo) := by
  refine ⟨?_, ?_, ?_, ?_, ?_, ?_⟩ <;>
    first
      | (intro tmo o x hx
         simp [StreamIOInit, pyOrOpt, hx])
      | (intro tmo o
         simp [StreamIOInit, pyOrOpt])

/-- Witness for C9's amended statement: a non-zero override wins on both
sides; `None` and `0` fall back to the constructor-level timeout. -/
theorem stream_timeouts_resolution_witness :
    (StreamIOInit (some 5) (some 7) (some 9)).1 = some 7 ∧
    (StreamIOInit (some 5) none none).1 = some 5 ∧
    (StreamIOInit (some 5) (some 0) none).1 = some 5 ∧
    (StreamIOInit (some 5) (some 7) (some 9)).2 = some 9 ∧
    (StreamIOInit (some 5) none none).2 = some 5 ∧
    (StreamIOInit (some 5) none (some 0)).2 = some 5 :=
  ⟨stream_timeouts_resolution.1 (some 5) (some 9) 7 (by decide),
   stream_timeouts_resolution.2.1 (some 5) none,
   stream_timeouts_resolution.2.2.1 (some 5) none,
   stream_timeouts_resolution.2.2.2.1 (some 5) (some 7) 9 (by decide),
   stream_timeouts_resolution.2.2.2.2.1 (some 5) none,
   stream_timeouts_resolution.2.2.2.2.2 (some 5) none⟩

/-- Pairs whose limits fit the spec's data model (`None` or positive) are
selected by the code's truthiness test exactly when their limit is set. -/
lemma filter_truthy_eq_filter_isSome (ts : ThrottleDict) (d : Direction)
    (h : ∀ p ∈ ts, validLimitB ((p.2.side d).limit) = true) :
    List.filter (fun p => limitTruthy ((p.2.side d).limit)) ts =
      List.filter (fun p => ((p.2.side d).limit).isSome) ts := by
  induction ts with
  | nil => rfl
  | cons hd tl ih =>
    have hhd := h hd (List.mem_cons_self _ _)
    have htl := ih (fun p hp => h p (List.mem_cons_of_mem _ hp))
    rcases hlim : (hd.2.side d).limit with _ | l
    · have h1 : limitTruthy ((hd.2.side d).limit) = false := by rw [hlim]; rfl
      have h2 : ((hd.2.side d).limit).isSome = false := by rw [hlim]; rfl
      simp [List.filter_cons, h1, h2, htl]
    · rw [hlim] at hhd
      have hlpos : 0 < l := by simpa [validLimitB] using hhd
      have h1 : limitTruthy ((hd.2.side d).limit) = true := by
        rw [hlim]
        simp only [limitTruthy, decide_eq_true_eq]
        omega
      have h2 : ((hd.2.side d).limit).isSome = true := by rw [hlim]; rfl
      simp [List.filter_cons, h1, h2, htl]

/-- Sleep duration of `wait()` in terms of the fields of a limited throttle
with its window started. -/
lemma waitRun_of_fields (t : Throttle) (l : ℤ) (ws : ℚ) (now : ℚ)
    (hl : t.limit = some l) (hw : t.start = some ws) (hpos : 0 < l) :
    (t.waitRun now).1 = max 0 (ws + (t.sum : ℚ) / (l : ℚ) - now) := by
  rcases t with ⟨lim, rr, st, sm⟩
  cases hl
  cases hw
  unfold Throttle.waitRun
  dsimp only
  rw [if_pos hpos]

/-- C3: on every throttled read/readline/write, the per-direction wait runs
over exactly the named pairs whose side for that direction has a limit set
(in the spec's data model of optional positive limits), and the waits run
concurrently: the total delay is the maximum — not the sum — of the
individual required waits; consequently stacking two pairs with limits
`L1 < L2` and a common accounting history on one direction delays exactly as
the tighter limit `L1` demands. -/
theorem throttled_wait_all_spec :
    (∀ (ts : ThrottleDict) (d : Direction) (now : ℚ),
      (∀ p ∈ ts, validLimitB ((p.2.side d).limit) = true) →
      waitedNames ts d =
          (List.filter (fun p => ((p.2.side d).limit).isSome) ts).map Prod.fst ∧
        waitAllDuration ts d now =
          ((List.filter (fun p => ((p.2.side d).limit).isSome) ts).map
              (fun p => ((p.2.side d).waitRun now).1)).foldr max 0) ∧
    (∀ (n1 n2 : String) (p1 p2 : StreamThrottle) (d : Direction) (l1 l2 : ℤ)
        (ws : ℚ) (s : ℤ) (now : ℚ),
      0 < l1 → l1 < l2 → 0 ≤ s →
      (p1.side d).limit = some l1 → (p1.side d).start = some ws →
      (p1.side d).sum = s →
      (p2.side d).limit = some l2 → (p2.side d).start = some ws →
      (p2.side d).sum = s →
      waitAllDuration [(n1, p1), (n2, p2)] d now = ((p1.side d).waitRun now).1) := by
  constructor
  · intro ts d now h
    rw [waitedNames, waitAllDuration, filter_truthy_eq_filter_isSome ts d h]
    exact ⟨rfl, rfl⟩
  · intro n1 n2 p1 p2 d l1 l2 ws s now hl1 hl12 hs e1 e2 e3 f1 f2 f3
    have hl2 : 0 < l2 := lt_trans hl1 hl12
    have hq1 : (0 : ℚ) < (l1 : ℚ) := by exact_mod_cast hl1
    have hq2 : (0 : ℚ) < (l2 : ℚ) := by exact_mod_cast hl2
    have hq12 : (l1 : ℚ) ≤ (l2 : ℚ) := by exact_mod_cast le_of_lt hl12
    have hqs : (0 : ℚ) ≤ (s : ℚ) := by exact_mod_cast hs
    have hdiv : (s : ℚ) / (l2 : ℚ) ≤ (s : ℚ) / (l1 : ℚ) := by gcongr
    have hw1 : ((p1.side d).waitRun now).1 = max 0 (ws + (s : ℚ) / (l1 : ℚ) - now) := by
      rw [waitRun_of_fields (p1.side d) l1 ws now e1 e2 hl1, e3]
    have hw2 : ((p2.side d).waitRun now).1 = max 0 (ws + (s : ℚ) / (l2 : ℚ) - now) := by
      rw [waitRun_of_fields (p2.side d) l2 ws now f1 f2 hl2, f3]
    have ht1 : limitTruthy ((p1.side d).limit) = true := by
      rw [e1]
      simp only [limitTruthy, decide_eq_true_eq]
      omega
    have ht2 : limitTruthy ((p2.side d).limit) = true := by
      rw [f1]
      simp only [limitTruthy, decide_eq_true_eq]
      omega
    rw [waitAllDuration]
    simp only [List.filter_cons, ht1, ht2, if_true, List.filter_nil, List.map_cons,
      List.map_nil, List.foldr_cons, List.foldr_nil]
    rw [hw1, hw2]
    have h2nn : (0 : ℚ) ≤ max 0 (ws + (s : ℚ) / (l2 : ℚ) - now) := le_max_left 0 _
    have h21 : max 0 (ws + (s : ℚ) / (l2 : ℚ) - now)
        ≤ max 0 (ws + (s : ℚ) / (l1 : ℚ) - now) :=
      max_le_max le_rfl (by linarith)
    rw [max_eq_left h2nn, max_eq_left h21]

/-- A valid throttle mapping for the witness: a pair limited on read, a pair
unlimited on read. -/
def witnessDict : ThrottleDict :=
  [("a", StreamThrottle.fromLimits (some 3) none),
   ("b", StreamThrottle.fromLimits none (some 4))]

/-- Witness for C3: the waited set and concurrent delay on a two-pair
mapping, and the stacked-limits instance with `L1 = 1 < L2 = 2`. -/
theorem throttled_wait_all_spec_witness :
    (waitedNames witnessDict Direction.read =
        (List.filter (fun p => ((p.2.side Direction.read).limit).isSome)
          witnessDict).map Prod.fst ∧
      waitAllDuration witnessDict Direction.read 0 =
        ((List.filter (fun p => ((p.2.side Direction.read).limit).isSome)
            witnessDict).map
          (fun p => ((p.2.side Direction.read).waitRun 0).1)).foldr max 0) ∧
    waitAllDuration
        [("a",
            ⟨⟨some 1, 10, some 0, 5⟩, Throttle.init none 10⟩),
         ("b",
            ⟨⟨some 2, 10, some 0, 5⟩, Throttle.init none 10⟩)]
        Direction.read 0 =
      (((⟨⟨some 1, 10, some 0, 5⟩, Throttle.init none 10⟩ :
          StreamThrottle).side Direction.read).waitRun 0).1 :=
  ⟨throttled_wait_all_spec.1 witnessDict Direction.read 0 (by decide),
   throttled_wait_all_spec.2 ("a") ("b")
     ⟨⟨some 1, 10, some 0, 5⟩, Throttle.init none 10⟩
     ⟨⟨some 2, 10, some 0, 5⟩, Throttle.init none 10⟩
     Direction.read 1 2 0 5 0 (by decide) (by decide) (by decide)
     rfl rfl rfl rfl rfl rfl⟩

/-- Writing back the unchanged throttle on a side leaves the pair intact. -/
lemma withSide_side_self (p : StreamThrottle) (d : Direction) :
    p.withSide d (p.side d) = p := by
  cases d <;> rfl

/-- `append` on an unlimited throttle leaves it unchanged. -/
lemma append_unlimited (t : Throttle) (len : ℕ) (start : ℚ)
    (h : t.limit = none) : t.append len start = t := by
  rcases t with ⟨lim, rr, st, sm⟩
  cases h
  rfl

/-- C4: each throttled read/readline/write waits first, captures the
observed start immediately after the waits (hence immediately before the raw
transfer), performs the raw transfer, and only then accounts — calling
`append` on the relevant side of every named pair, with exactly the bytes
actually transferred (the bytes the raw read returned, or the bytes passed to
the write, never the amount requested); pairs without a limit on that side
are left unchanged by the accounting. -/
theorem throttled_account_actual_spec :
    (∀ (ts : ThrottleDict) (count : ℤ) (now : ℚ) (raw : ℤ → ℚ → List ℕ),
      (throttledRead ts count now raw).1 =
          raw count (now + waitAllDuration ts Direction.read now) ∧
        (throttledRead ts count now raw).2.1 =
          appendAll ts Direction.read (throttledRead ts count now raw).1
            (now + waitAllDuration ts Direction.read now) ∧
        (throttledRead ts count now raw).2.2 =
          [Event.waited Direction.read (waitAllDuration ts Direction.read now),
            Event.transferred Direction.read (throttledRead ts count now raw).1.length
              (now + waitAllDuration ts Direction.read now),
            Event.accounted Direction.read (throttledRead ts count now raw).1.length
              (now + waitAllDuration ts Direction.read now)]) ∧
    (∀ (ts : ThrottleDict) (now : ℚ) (raw : ℚ → List ℕ),
      (throttledReadline ts now raw).1 =
          raw (now + waitAllDuration ts Direction.read now) ∧
        (throttledReadline ts now raw).2.1 =
          appendAll ts Direction.read (throttledReadline ts now raw).1
            (now + waitAllDuration ts Direction.read now) ∧
        (throttledReadline ts now raw).2.2 =
          [Event.waited Direction.read (waitAllDuration ts Direction.read now),
            Event.transferred Direction.read (throttledReadline ts now raw).1.length
              (now + waitAllDuration ts Direction.read now),
            Event.accounted Direction.read (throttledReadline ts now raw).1.length
              (now + waitAllDuration ts Direction.read now)]) ∧
    (∀ (ts : ThrottleDict) (data : List ℕ) (now : ℚ),
      (throttledWrite ts data now).1 =
          appendAll ts Direction.write data
            (now + waitAllDuration ts Direction.write now) ∧
        (throttledWrite ts data now).2 =
          [Event.waited Direction.write (waitAllDuration ts Direction.write now),
            Event.transferred Direction.write data.length
              (now + waitAllDuration ts Direction.write now),
            Event.accounted Direction.write data.length
              (now + waitAllDuration ts Direction.write now)]) ∧
    (∀ (ts : ThrottleDict) (d : Direction) (data : List ℕ) (start : ℚ),
      (appendAll ts d data start).map Prod.fst = ts.map Prod.fst) ∧
    (∀ (ts : ThrottleDict) (d : Direction) (data : List ℕ) (start : ℚ)
        (p : String × StreamThrottle), p ∈ ts → (p.2.side d).limit = none →
      p ∈ appendAll ts d data start) := by
  refine ⟨?_, ?_, ?_, ?_, ?_⟩
  · intro ts count now raw
    exact ⟨rfl, rfl, rfl⟩
  · intro ts now raw
    exact ⟨rfl, rfl, rfl⟩
  · intro ts data now
    exact ⟨rfl, rfl⟩
  · intro ts d data start
    simp only [appendAll, List.map_map]
    rfl
  · intro ts d data start p hp hnone
    have hmem := List.mem_map_of_mem
      (fun q => (q.1, q.2.withSide d ((q.2.side d).append data.length start))) hp
    dsimp only at hmem
    rwa [append_unlimited _ _ _ hnone, withSide_side_self] at hmem

/-- Witness for C4 on a concrete mapping: the trace/accounting equations for
a read of a two-pair dictionary, and the unlimited pair passing through the
write-side accounting unchanged. -/
theorem throttled_account_actual_spec_witness :
    ((throttledRead witnessDict (-1) 0 (fun _ _ => [7, 7, 7])).2.1 =
        appendAll witnessDict Direction.read
          (throttledRead witnessDict (-1) 0 (fun _ _ => [7, 7, 7])).1
          (0 + waitAllDuration witnessDict Direction.read 0)) ∧
    ("a", StreamThrottle.fromLimits (some 3) none) ∈
      appendAll witnessDict Direction.write [7, 7, 7] 0 :=
  ⟨(throttled_account_actual_spec.1 witnessDict (-1) 0 (fun _ _ => [7, 7, 7])).2.1,
   throttled_account_actual_spec.2.2.2.2 witnessDict Direction.write [7, 7, 7] 0
     ("a", StreamThrottle.fromLimits (some 3) none) (by decide) rfl⟩

/-- `_to_list` collects every element, in order, when no step times out. -/
lemma collectSteps_ok {α : Type} (timeout : Option ℚ) (elems : List (ℚ × α))
    (ed : ℚ) (h : ∀ p ∈ elems, timesOut timeout p.1 = false)
    (he : timesOut timeout ed = false) :
    collectSteps timeout elems ed = CollectOutcome.ok (elems.map Prod.snd) := by
  induction elems with
  | nil => simp [collectSteps, he]
  | cons hd tl ih =>
    obtain ⟨d, x⟩ := hd
    have h1 : timesOut timeout d = false := h (d, x) (List.mem_cons_self _ _)
    have h2 := ih (fun p hp => h p (List.mem_cons_of_mem _ hp))
    simp [collectSteps, h1, h2]

/-- `_to_list` propagates the deadline failure of any timed-out step. -/
lemma collectSteps_deadline {α : Type} (timeout : Option ℚ) (elems : List (ℚ × α))
    (ed : ℚ)
    (h : (∃ p ∈ elems, timesOut timeout p.1 = true) ∨ timesOut timeout ed = true) :
    collectSteps timeout elems ed = CollectOutcome.deadline := by
  induction elems with
  | nil =>
    rcases h with ⟨p, hp, _⟩ | he
    · exact absurd hp (List.not_mem_nil p)
    · simp [collectSteps, he]
  | cons hd tl ih =>
    obtain ⟨d, x⟩ := hd
    by_cases h1 : timesOut timeout d = true
    · simp [collectSteps, h1]
    · have h1f : timesOut timeout d = false := by
        revert h1
        cases timesOut timeout d <;> simp
      have h' : (∃ p ∈ tl, timesOut timeout p.1 = true) ∨
          timesOut timeout ed = true := by
        rcases h with ⟨p, hp, hpt⟩ | he
        · rcases List.mem_cons.mp hp with rfl | hmem
          · exact absurd hpt h1
          · exact Or.inl ⟨p, hmem, hpt⟩
        · exact Or.inr he
      simp [collectSteps, h1f, ih h']

/-- C7: awaiting an `AbstractAsyncLister` applies the configured per-element
timeout to every produce-next-element step (the exhausting step included);
when no step exceeds it, the await returns exactly all remaining elements in
order; when any step exceeds it, the await fails with the deadline error, not
with a partial list and never mistaken for normal exhaustion. -/
theorem abstract_lister_collect_spec :
    (∀ (α : Type) (timeout : Option ℚ) (run : ListerRun α),
      (∀ p ∈ run.elems, timesOut timeout p.1 = false) →
      timesOut timeout run.exhaustDur = false →
      awaitLister timeout run = CollectOutcome.ok (run.elems.map Prod.snd)) ∧
    (∀ (α : Type) (timeout : Option ℚ) (run : ListerRun α),
      ((∃ p ∈ run.elems, timesOut timeout p.1 = true) ∨
        timesOut timeout run.exhaustDur = true) →
      awaitLister timeout run = CollectOutcome.deadline) := by
  constructor
  · rintro α timeout ⟨elems, ed⟩ h he
    exact collectSteps_ok timeout elems ed h he
  · rintro α timeout ⟨elems, ed⟩ h
    exact collectSteps_deadline timeout elems ed h

/-- Witness for C7: a lister producing `[1, 2, 3]` under a sufficient
timeout collects `[1, 2, 3]`; with one slow element it fails with the
deadline error. -/
theorem abstract_lister_collect_spec_witness :
    awaitLister (some 2) (⟨[(1, 1), (1, 2), (1, 3)], 1⟩ : ListerRun ℕ) =
        CollectOutcome.ok [1, 2, 3] ∧
      awaitLister (some 2) (⟨[(1, 1), (5, 2), (1, 3)], 1⟩ : ListerRun ℕ) =
        CollectOutcome.deadline :=
  ⟨abstract_lister_collect_spec.1 ℕ (some 2) ⟨[(1, 1), (1, 2), (1, 3)], 1⟩
      (by decide) (by decide),
   abstract_lister_collect_spec.2 ℕ (some 2) ⟨[(1, 1), (5, 2), (1, 3)], 1⟩
      (Or.inl (by decide))⟩

/-- C8: an `AsyncStreamIterator` step calls the read operation once,
yielding a non-empty result and signalling exhaustion on an empty one; over
the stream `b"a", b"b", b""` the iteration produces exactly `[b"a", b"b"]`
using three read calls (none after the first empty result), and iterating
the same exhausted iterator again yields nothing — it stays exhausted. -/
theorem stream_iterator_spec :
    (∀ (σ : Type) (read : σ → List ℕ × σ) (s : σ),
      (read s).1 = [] → anext read s = none) ∧
    (∀ (σ : Type) (read : σ → List ℕ × σ) (s : σ),
      (read s).1 ≠ [] → anext read s = some (read s)) ∧
    drive streamRead 10 [[97], [98], []] = ([[97], [98]], [], 3) ∧
    drive streamRead 10 ((drive streamRead 10 [[97], [98], []]).2.1) =
      ([], [], 1) := by
  refine ⟨?_, ?_, by decide, by decide⟩
  · intro σ read s h
    simp [anext, h]
  · intro σ read s h
    simp [anext, h]

/-- Witness for C8's step conjuncts at concrete streams: an empty read ends
the iteration, a non-empty read yields the chunk. -/
theorem stream_iterator_spec_witness :
    anext streamRead ([] : List (List ℕ)) = none ∧
      anext streamRead [[97]] = some ([97], []) :=
  ⟨stream_iterator_spec.1 (List (List ℕ)) streamRead [] rfl,
   stream_iterator_spec.2.1 (List (List ℕ)) streamRead [[97]] (by decide)⟩

/-- C10: two `ThrottleStreamIO` instances constructed with the `throttles`
keyword omitted both hold the constructor's default dictionary — the same
mutable object, allocated once at function definition — so a named
`StreamThrottle` inserted through one instance is seen, waited on and
accounted into by the reads and writes of the other: on the concrete store,
after the insertion through the first instance the second instance's read
waits `2` seconds on the inserted pair and its accounting adds the five
transferred bytes to the pair's read throttle. -/
theorem throttles_default_shared_spec :
    throttleStreamInitAddr none = defaultThrottlesAddr ∧
    (∀ (st : Store) (k : String) (v : StreamThrottle),
      Store.getDict (insertThrottleVia st (throttleStreamInitAddr none) k v)
          (throttleStreamInitAddr none) =
        dictInsert (Store.getDict st defaultThrottlesAddr) k v) ∧
    waitVia
        (insertThrottleVia store0 (throttleStreamInitAddr none) "main"
          ⟨⟨some 10, 10, some 0, 30⟩, Throttle.init none 10⟩)
        (throttleStreamInitAddr none) Direction.read 1 = 2 ∧
    Store.getDict
        ((readVia
            (insertThrottleVia store0 (throttleStreamInitAddr none) "main"
              ⟨⟨some 10, 10, some 0, 30⟩, Throttle.init none 10⟩)
            (throttleStreamInitAddr none) (-1) 1 (fun _ _ => [1, 2, 3, 4, 5])).2)
        (throttleStreamInitAddr none) =
      [("main", ⟨⟨some 10, 10, some 0, 35⟩, Throttle.init none 10⟩)] := by
  refine ⟨rfl, ?_, ?_, ?_⟩
  · intro st k v
    simp [insertThrottleVia, Store.getDict, Store.setDict,
      throttleStreamInitAddr, defaultThrottlesAddr]
  · show waitVia
        (insertThrottleVia store0 0 "main"
          ⟨⟨some 10, 10, some 0, 30⟩, Throttle.init none 10⟩) 0
        Direction.read 1 = 2
    rw [waitVia, insertThrottleVia]
    norm_num [Store.getDict, Store.setDict, store0, dictInsert,
      waitAllDuration, limitTruthy, StreamThrottle.side, Throttle.waitRun,
      List.filter]
  · show Store.getDict
        ((readVia
            (insertThrottleVia store0 0 "main"
              ⟨⟨some 10, 10, some 0, 30⟩, Throttle.init none 10⟩)
            0 (-1) 1 (fun _ _ => [1, 2, 3, 4, 5])).2) 0 =
      [("main", ⟨⟨some 10, 10, some 0, 35⟩, Throttle.init none 10⟩)]
    rw [readVia, insertThrottleVia]
    norm_num [Store.getDict, Store.setDict, store0, dictInsert, throttledRead,
      appendAll, waitAllDuration, limitTruthy, StreamThrottle.side,
      StreamThrottle.withSide, Throttle.waitRun, Throttle.append, Throttle.init,
      List.filter]
